import Mathlib

/-!
# Client routing layer of `rtidb::catalog` (client_manager.h)

A shallow embedding of the four classes of `src/catalog/client_manager.h`:
`ClientWrapper`, `PartitionClientManager`, `TableClientManager` and
`ClientManager`.

Objects owned through `std::shared_ptr` live in a `World`: one list per class,
an object is named by its position in the list (its allocation number), and a
`shared_ptr` is an `Option Nat` (`none` is the empty pointer).  Applying `->`
to an empty pointer, or to a number that names no object, is a `Fault`.
`TabletClient::Init()` talks to the network; its return code is supplied by an
oracle that is a parameter of every operation that calls it, and every call is
recorded in `World.inits`.

The header defines the methods of `ClientWrapper`, `GetLeader`,
`GetPartitionClientManager` and `GetTablets`; they are translated from it.
The header only declares `GetFollower`, `UpdatePartitionClientManager`,
`ClientManager::GetClient`, `ClientManager::UpdateClient` and the constructor
of `PartitionClientManager`; their bodies are modelled from the specification
and marked as such.

The atomic loads and stores are sequentially plain loads and stores; the
interleaving of threads is not modelled.
-/

set_option linter.dupNamespace false

deriving instance DecidableEq for Except

namespace rtidb.catalog

/-- Undefined behaviour reached by the C++ code. -/
inductive Fault where
  | nullDeref
  | dangling
deriving DecidableEq, Repr

/-- The return code of `TabletClient::Init()` for a client built from
`(name, endpoint)`.  The header of `TabletClient` is not part of the sources,
so the outcome of the handshake is a parameter.  One `UpdateClient(endpoint)`
calls `Init()` once and one batch calls it at most once for a name, so a
function of the two constructor arguments covers every course a call can
take. -/
abbrev InitOracle := String → String → Int

/-- The part of `::rtidb::client::TabletClient` the routing layer relies on:
the two constructor arguments `TabletClient(name, endpoint)`. -/
structure TabletClient where
  name : String
  endpoint : String
deriving DecidableEq, Repr

/-- The fields of `class ClientWrapper`. -/
structure ClientWrapper where
  name_ : String
  tablet_client_ : Option Nat
deriving DecidableEq, Repr

/-- The fields of `class PartitionClientManager`; `rand_` is the state of the
entry-local generator. -/
structure PartitionClientManager where
  pid_ : Nat
  leader_ : Option Nat
  followers_ : List (Option Nat)
  rand_ : Nat
deriving DecidableEq, Repr

/-- The heap: every `TabletClient`, `ClientWrapper` and
`PartitionClientManager` object made so far, and the log of the
`TabletClient::Init()` calls performed, as `(name, endpoint)`. -/
structure World where
  tablets : List TabletClient
  wrappers : List ClientWrapper
  managers : List PartitionClientManager
  inits : List (String × String)
deriving DecidableEq, Repr

/-- The world in which nothing has been allocated yet. -/
def World.empty : World := ⟨[], [], [], []⟩

/-! ## ClientWrapper -/

/-- Constructor `explicit ClientWrapper(const std::string& name)`, lines 40:
`name_(name), tablet_client_()`.  Returns the new object and the world that
holds it. -/
def ClientWrapper.ClientWrapper (name : String) (w : World) : Nat × World :=
  (w.wrappers.length, { w with wrappers := w.wrappers ++ [⟨name, none⟩] })

/-- Constructor `ClientWrapper(name, client)`, lines 42-43:
`name_(name), tablet_client_(client)`. -/
def ClientWrapper.ClientWrapperWithClient (name : String) (client : Option Nat) (w : World) :
    Nat × World :=
  (w.wrappers.length, { w with wrappers := w.wrappers ++ [⟨name, client⟩] })

/-- Method `ClientWrapper::GetClient()`, lines 45-47: an atomic load of
`tablet_client_`. -/
def ClientWrapper.GetClient (self : Nat) (w : World) : Except Fault (Option Nat) :=
  match w.wrappers[self]? with
  | none => .error .dangling
  | some obj => .ok obj.tablet_client_

/-- Method `ClientWrapper::UpdateClient(const std::string& endpoint)`, lines 49-56.
`make_shared<TabletClient>(name_, endpoint)` builds the candidate; when
`Init()` is not 0 the candidate dies with the scope and `false` is returned;
otherwise the candidate is stored in `tablet_client_`. -/
def ClientWrapper.UpdateClient (init : InitOracle) (self : Nat) (endpoint : String) (w : World) :
    Except Fault (Bool × World) :=
  match w.wrappers[self]? with
  | none => .error .dangling
  | some obj =>
    let client : TabletClient := ⟨obj.name_, endpoint⟩
    let w1 : World := { w with inits := w.inits ++ [(obj.name_, endpoint)] }
    if init client.name client.endpoint ≠ 0 then
      .ok (false, w1)
    else
      .ok (true, { w1 with
        tablets := w1.tablets ++ [client]
        wrappers := w1.wrappers.set self { obj with tablet_client_ := some w1.tablets.length } })

/-- Method `ClientWrapper::UpdateClient(const std::shared_ptr<TabletClient>& client)`,
lines 58-61: stores `client` and returns `true`. -/
def ClientWrapper.UpdateClientShared (self : Nat) (client : Option Nat) (w : World) :
    Except Fault (Bool × World) :=
  match w.wrappers[self]? with
  | none => .error .dangling
  | some obj =>
    .ok (true, { w with wrappers := w.wrappers.set self { obj with tablet_client_ := client } })

/-- The call `p->GetClient()` through a `shared_ptr<ClientWrapper>`. -/
def ClientWrapper.GetClientVia (p : Option Nat) (w : World) : Except Fault (Option Nat) :=
  match p with
  | none => .error .nullDeref
  | some self => ClientWrapper.GetClient self w

/-! ## PartitionClientManager -/

/-- Modelled from the spec: the body of the constructor
`PartitionClientManager(pid, leader, followers)` is in client_manager.cc, which
is not part of the sources.  Section 4.2: "Constructed once from a leader
handle reference and an ordered follower handle list for one partition id".
`seed` is the initial state of `rand_`. -/
def PartitionClientManager.PartitionClientManager (seed pid : Nat) (leader : Option Nat)
    (followers : List (Option Nat)) (w : World) : Nat × World :=
  (w.managers.length, { w with managers := w.managers ++ [⟨pid, leader, followers, seed⟩] })

/-- Method `PartitionClientManager::GetLeader()`, line 73:
`return leader_->GetClient();`. -/
def PartitionClientManager.GetLeader (self : Nat) (w : World) : Except Fault (Option Nat) :=
  match w.managers[self]? with
  | none => .error .dangling
  | some obj => ClientWrapper.GetClientVia obj.leader_ w

/-- Modelled from the spec: the body of `PartitionClientManager::GetFollower()`
is in client_manager.cc and `::rtidb::base::Random` in base/random.h, neither
part of the sources.  Section 4.2: "selects uniformly at random among the
follower list fixed at construction, using an entry-local random generator, and
delegates to that handle's get().  Policy: if the follower list is empty, fall
back to the leader's connection".  `next` is the generator: it maps the state
`rand_` to the number drawn and the following state. -/
def PartitionClientManager.GetFollower (next : Nat → Nat × Nat) (self : Nat) (w : World) :
    Except Fault (Option Nat × World) :=
  match w.managers[self]? with
  | none => .error .dangling
  | some obj =>
    if obj.followers_.length = 0 then
      match ClientWrapper.GetClientVia obj.leader_ w with
      | .error f => .error f
      | .ok c => .ok (c, w)
    else
      let drawn := next obj.rand_
      let w1 : World := { w with managers := w.managers.set self { obj with rand_ := drawn.2 } }
      match obj.followers_[drawn.1 % obj.followers_.length]? with
      | none => .error .dangling
      | some p =>
        match ClientWrapper.GetClientVia p w with
        | .error f => .error f
        | .ok c => .ok (c, w1)

/-! ## ClientManager -/

/-- Lookup in a `std::map<std::string, T>` kept as a list of pairs with
pairwise different keys (`std::map::find`). -/
def mapFind {β : Type} : List (String × β) → String → Option β
  | [], _ => none
  | (k1, v1) :: rest, k => if k1 = k then some v1 else mapFind rest k

/-- Insert-or-assign in a `std::map<std::string, T>`: the value of an existing
key is replaced, a new key is added. -/
def mapPut {β : Type} : List (String × β) → String → β → List (String × β)
  | [], k, v => [(k, v)]
  | (k1, v1) :: rest, k, v => if k1 = k then (k1, v) :: rest else (k1, v1) :: mapPut rest k v

/-- The fields of `class ClientManager`, lines 123-124 (the spin lock `mu_`
has no sequential content). -/
structure ClientManager where
  real_endpoint_map_ : List (String × String)
  clients_ : List (String × Option Nat)
deriving DecidableEq, Repr

/-- Modelled from the spec: the body of `ClientManager::GetClient(name)` is in
client_manager.cc, not part of the sources.  Section 4.4: "lookup(name) →
returns the Client Handle for name, or empty if unknown". -/
def ClientManager.GetClient (self : ClientManager) (name : String) : Option Nat :=
  match mapFind self.clients_ name with
  | none => none
  | some p => p

/-- Modelled from the spec: one iteration of the loop of
`ClientManager::UpdateClient(const std::map<std::string, std::string>&)`, whose
body is in client_manager.cc, not part of the sources.  Section 4.4: "for
every (name, endpoint) pair: if a handle exists for name, call its
update(endpoint); only establishes a new connection if the resolved endpoint
differs from the handle's current target.  If no handle exists, construct one
and initialize its connection [...] acquiring the lock only to publish the new
entry.  A single failing initialization does not abort the batch: processing
continues for remaining entries, the previously working state of any unaffected
or failed name is preserved untouched".  The handle's current target is the
endpoint recorded for the name in `real_endpoint_map_`.  The result is the
success of this pair, the registry and the world. -/
def ClientManager.UpdateClientStep (init : InitOracle) (self : ClientManager)
    (kv : String × String) (w : World) : Except Fault (Bool × ClientManager × World) :=
  match self.GetClient kv.1 with
  | some h =>
    if mapFind self.real_endpoint_map_ kv.1 = some kv.2 then
      .ok (true, self, w)
    else
      match ClientWrapper.UpdateClient init h kv.2 w with
      | .error f => .error f
      | .ok (false, w1) => .ok (false, self, w1)
      | .ok (true, w1) =>
        .ok (true, { self with real_endpoint_map_ := mapPut self.real_endpoint_map_ kv.1 kv.2 }, w1)
  | none =>
    let made := ClientWrapper.ClientWrapper kv.1 w
    match ClientWrapper.UpdateClient init made.1 kv.2 made.2 with
    | .error f => .error f
    | .ok (false, w1) => .ok (false, self, { w with inits := w1.inits })
    | .ok (true, w1) =>
      .ok (true,
        { real_endpoint_map_ := mapPut self.real_endpoint_map_ kv.1 kv.2
          clients_ := mapPut self.clients_ kv.1 (some made.1) }, w1)

/-- Modelled from the spec: `ClientManager::UpdateClient(const
std::map<std::string, std::string>& real_ep_map)`, whose body is in
client_manager.cc, not part of the sources.  The pairs are visited in the
iteration order of the map; section 4.4: "the call's overall result reports
partial failure while still applying all entries that succeeded", so the
result is `true` exactly when no pair failed. -/
def ClientManager.UpdateClient (init : InitOracle) :
    List (String × String) → ClientManager → World → Except Fault (Bool × ClientManager × World)
  | [], self, w => .ok (true, self, w)
  | kv :: rest, self, w =>
    match ClientManager.UpdateClientStep init self kv w with
    | .error f => .error f
    | .ok (ok1, self1, w1) =>
      match ClientManager.UpdateClient init rest self1 w1 with
      | .error f => .error f
      | .ok (ok2, self2, w2) => .ok (ok1 && ok2, self2, w2)

/-- A registry is well formed in a world when every handle it holds is a live
`ClientWrapper` whose `name_` is the key it is registered under. -/
def ClientManager.WF (self : ClientManager) (w : World) : Prop :=
  ∀ p ∈ self.clients_, ∀ h, p.2 = some h → (w.wrappers[h]?).map ClientWrapper.name_ = some p.1

instance (self : ClientManager) (w : World) : Decidable (self.WF w) := by
  unfold ClientManager.WF
  infer_instance

/-- What the registry and the world hold for one name: the endpoint recorded
for it, its handle, and the `ClientWrapper` object behind the handle (its
`name_` and the connection it publishes). -/
def ClientManager.stateOf (self : ClientManager) (w : World) (name : String) :
    Option String × Option Nat × Option ClientWrapper :=
  (mapFind self.real_endpoint_map_ name, self.GetClient name,
    (self.GetClient name).bind (fun h => w.wrappers[h]?))

/-- The pair `(name, endpoint)` makes `UpdateClientStep` build and initialize a
connection: the name has no handle yet, or the endpoint recorded for it is
another one. -/
def ClientManager.needsInit (self : ClientManager) (kv : String × String) : Prop :=
  self.GetClient kv.1 = none ∨ mapFind self.real_endpoint_map_ kv.1 ≠ some kv.2

instance (self : ClientManager) (kv : String × String) : Decidable (self.needsInit kv) := by
  unfold ClientManager.needsInit
  infer_instance

/-- The name has a handle in the registry, the handle publishes a connection
built from `(name, endpoint)`, and `endpoint` is the endpoint recorded for the
name. -/
def ClientManager.publishes (self : ClientManager) (w : World) (name endpoint : String) : Prop :=
  ∃ h c, self.GetClient name = some h ∧ w.wrappers[h]? = some ⟨name, some c⟩ ∧
    w.tablets[c]? = some ⟨name, endpoint⟩ ∧ mapFind self.real_endpoint_map_ name = some endpoint

/-! ## TableClientManager -/

/-- The field of `class TableClientManager`, line 111. -/
structure TableClientManager where
  partition_managers_ : List (Option Nat)
deriving DecidableEq, Repr

/-- Method `TableClientManager::GetPartitionClientManager(uint32_t pid)`,
lines 92-97.  `pid` is compared as an unsigned number with `size()`, nothing
wraps. -/
def TableClientManager.GetPartitionClientManager (self : TableClientManager) (pid : Nat) :
    Option Nat :=
  if h : pid < self.partition_managers_.length then
    self.partition_managers_[pid]
  else
    none

/-- Method `TableClientManager::GetTablets(uint32_t pid)`, lines 102-108. -/
def TableClientManager.GetTablets (self : TableClientManager) (pid : Nat) (w : World) :
    Except Fault (Option Nat) :=
  match self.GetPartitionClientManager pid with
  | some partition_manager => PartitionClientManager.GetLeader partition_manager w
  | none => .ok none

/-- Modelled from the spec: `::rtidb::storage::PartitionSt` is declared in
storage/schema.h, not part of the sources.  Section 6: "per-partition
descriptions (table id, partition id, leader name, ordered follower names)". -/
structure PartitionSt where
  pid : Nat
  leader : String
  follower : List String
deriving DecidableEq, Repr

/-- Resolves every name of a follower list through the registry; `none` when a
name is unknown. -/
def resolveFollowers (client_manager : ClientManager) : List String → Option (List (Option Nat))
  | [] => some []
  | name :: rest =>
    match client_manager.GetClient name, resolveFollowers client_manager rest with
    | some h, some hs => some (some h :: hs)
    | _, _ => none

/-- Modelled from the spec: the body of
`TableClientManager::UpdatePartitionClientManager(partition, client_manager)` is
in client_manager.cc, not part of the sources.  Section 4.3: "resolves the
partition's current leader/follower names via the Registry, builds a brand-new
Partition Routing Entry, and atomically replaces the slot at that partition
id".  The table has a fixed size and an entry requires its leader (section 3),
so a partition id without a slot or a name without a handle gives `false` and
changes nothing. -/
def TableClientManager.UpdatePartitionClientManager (seed : Nat) (self : TableClientManager)
    (partition : PartitionSt) (client_manager : ClientManager) (w : World) :
    Bool × TableClientManager × World :=
  if partition.pid < self.partition_managers_.length then
    match client_manager.GetClient partition.leader,
        resolveFollowers client_manager partition.follower with
    | some leader, some followers =>
      let made := PartitionClientManager.PartitionClientManager seed partition.pid (some leader)
        followers w
      (true, { partition_managers_ := self.partition_managers_.set partition.pid (some made.1) },
        made.2)
    | _, _ => (false, self, w)
  else
    (false, self, w)

/-- A run of `UpdatePartitionClientManager` calls, each with the registry of
its moment. -/
def TableClientManager.applyUpdates (seed : Nat) :
    List (PartitionSt × ClientManager) → TableClientManager → World → TableClientManager × World
  | [], self, w => (self, w)
  | u :: rest, self, w =>
    let r := TableClientManager.UpdatePartitionClientManager seed self u.1 u.2 w
    TableClientManager.applyUpdates seed rest r.2.1 r.2.2

/-! ## Sequences of calls on one handle -/

/-- A call on a Client Handle: `UpdateClient(endpoint)` together with the
outcome of the handshake at that moment, or `UpdateClient(client)`. -/
inductive HandleOp where
  | updateEndpoint (init : InitOracle) (endpoint : String)
  | updateShared (client : Option Nat)

/-- The call hands a connection to the handle: always for an endpoint (a new
connection is built), for a pre-built connection when the pointer is not
empty. -/
def HandleOp.suppliesConnection : HandleOp → Bool
  | .updateEndpoint _ _ => true
  | .updateShared client => client.isSome

/-- Performs the call on the handle `self`. -/
def HandleOp.run (self : Nat) (op : HandleOp) (w : World) : Except Fault (Bool × World) :=
  match op with
  | .updateEndpoint init endpoint => ClientWrapper.UpdateClient init self endpoint w
  | .updateShared client => ClientWrapper.UpdateClientShared self client w

/-- Performs a sequence of calls on the handle `self`, first call first. -/
def runOps (self : Nat) : List HandleOp → World → Except Fault World
  | [], w => .ok w
  | op :: rest, w =>
    match op.run self w with
    | .error f => .error f
    | .ok (_, w1) => runOps self rest w1

/-! ## Concrete worlds used by the witnesses -/

/-- A world with one connection for "tb1" and one handle publishing it. -/
def worldTb1 : World :=
  ⟨[⟨"tb1", "127.0.0.1:9831"⟩], [⟨"tb1", some 0⟩], [], []⟩

/-- The world `worldTb1` after `UpdateClient("127.0.0.1:9831")` on the handle
of "tb1" with a successful `Init()`: a second connection to the same endpoint
exists and the handle publishes it. -/
def worldTb1Again : World :=
  ⟨[⟨"tb1", "127.0.0.1:9831"⟩, ⟨"tb1", "127.0.0.1:9831"⟩], [⟨"tb1", some 1⟩], [],
    [("tb1", "127.0.0.1:9831")]⟩

/-- A partition with leader "tb1" and follower "tb2": the handle of "tb1"
publishes the connection 0, the handle of "tb2" was made by
`ClientWrapper("tb2")` and publishes nothing yet, and one routing entry for
partition 0 refers to both. -/
def worldLeaderFollower : World :=
  (PartitionClientManager.PartitionClientManager 7 0 (some 0) [some 1]
    (ClientWrapper.ClientWrapper "tb2" worldTb1).2).2

/-- A generator for the examples: draws its state and counts up. -/
def countingNext (state : Nat) : Nat × Nat := (state, state + 1)

/-- A registry that knows "tb1" as handle 0 and "tb2" as handle 1. -/
def registryTb : ClientManager :=
  ⟨[("tb1", "127.0.0.1:9831"), ("tb2", "127.0.0.1:9931")], [("tb1", some 0), ("tb2", some 1)]⟩

/-- A table with two slots: the entry 0 for partition 0, nothing yet for
partition 1. -/
def tableTwoSlots : TableClientManager := ⟨[some 0, none]⟩

/-- A world with the connections and handles of "tb1" and "tb2", a routing
entry for partition 0 with leader "tb1" and follower "tb2", and a routing entry
for partition 1 with leader "tb1" and no follower. -/
def worldReplicated : World :=
  ⟨[⟨"tb1", "127.0.0.1:9831"⟩, ⟨"tb2", "127.0.0.1:9931"⟩],
    [⟨"tb1", some 0⟩, ⟨"tb2", some 1⟩],
    [⟨0, some 0, [some 1], 7⟩, ⟨1, some 0, [], 7⟩], []⟩

/-- The handshake with "tb2" fails, every other one succeeds. -/
def initTb2Down : InitOracle := fun name _ => if name = "tb2" then -1 else 0

/-- A batch for the registry `registryTb`: the endpoint of "tb1" is the
recorded one, "tb2" moves, "tb3" is new. -/
def batchTb : List (String × String) :=
  [("tb1", "127.0.0.1:9831"), ("tb2", "127.0.0.1:9932"), ("tb3", "127.0.0.1:9731")]

/-- A world whose only routing entry, for partition 0, was constructed with an
empty leader pointer and no follower. -/
def worldNoLeader : World :=
  ⟨[], [], [⟨0, none, [], 7⟩], []⟩

/-- A table with one slot, holding the entry 0. -/
def tableOneSlot : TableClientManager := ⟨[some 0]⟩

/-! ## Theorems -/

/-! ### Helper lemmas on `ClientWrapper` -/

theorem getClient_of_wrapper {w : World} {self : Nat} {obj : ClientWrapper}
    (hself : w.wrappers[self]? = some obj) :
    ClientWrapper.GetClient self w = .ok obj.tablet_client_ := by
  simp [ClientWrapper.GetClient, hself]

theorem updateClient_failed {init : InitOracle} {w : World} {self : Nat} {obj : ClientWrapper}
    {endpoint : String} (hself : w.wrappers[self]? = some obj)
    (hinit : init obj.name_ endpoint ≠ 0) :
    ClientWrapper.UpdateClient init self endpoint w =
      .ok (false, { w with inits := w.inits ++ [(obj.name_, endpoint)] }) := by
  simp [ClientWrapper.UpdateClient, hself, hinit]

theorem updateClient_succeeded {init : InitOracle} {w : World} {self : Nat} {obj : ClientWrapper}
    {endpoint : String} (hself : w.wrappers[self]? = some obj)
    (hinit : init obj.name_ endpoint = 0) :
    ClientWrapper.UpdateClient init self endpoint w =
      .ok (true,
        { tablets := w.tablets ++ [⟨obj.name_, endpoint⟩]
          wrappers := w.wrappers.set self ⟨obj.name_, some w.tablets.length⟩
          managers := w.managers
          inits := w.inits ++ [(obj.name_, endpoint)] }) := by
  simp [ClientWrapper.UpdateClient, hself, hinit]

theorem updateClientShared_eq {w : World} {self : Nat} {obj : ClientWrapper}
    (client : Option Nat) (hself : w.wrappers[self]? = some obj) :
    ClientWrapper.UpdateClientShared self client w =
      .ok (true, { w with wrappers := w.wrappers.set self ⟨obj.name_, client⟩ }) := by
  simp [ClientWrapper.UpdateClientShared, hself]

theorem getElem?_set_self_of_some {α : Type} {l : List α} {i : Nat} {a b : α}
    (h : l[i]? = some a) : (l.set i b)[i]? = some b := by
  have hi : i < l.length := by
    rcases List.getElem?_eq_some.1 h with ⟨hi, _⟩
    exact hi
  simp [List.getElem?_set, hi]

/-! ### Claims on `ClientWrapper` -/

/-- C1: when `Init()` of the new connection fails, `UpdateClient(endpoint)`
returns `false`, the following `GetClient()` returns what it returned before
the call, and the handle, the connections and the routing entries of the world
are what they were. -/
theorem C1_update_endpoint_failure (init : InitOracle) (w : World) (self : Nat)
    (obj : ClientWrapper) (endpoint : String) (hself : w.wrappers[self]? = some obj)
    (hinit : init obj.name_ endpoint ≠ 0) :
    ∃ w1, ClientWrapper.UpdateClient init self endpoint w = .ok (false, w1) ∧
      ClientWrapper.GetClient self w1 = ClientWrapper.GetClient self w ∧
      w1.wrappers = w.wrappers ∧ w1.tablets = w.tablets ∧ w1.managers = w.managers := by
  refine ⟨_, updateClient_failed hself hinit, ?_, rfl, rfl, rfl⟩
  simp [ClientWrapper.GetClient]

/-- Witness of C1: the handle of "tb1" refuses an endpoint whose `Init()`
returns -1. -/
theorem C1_update_endpoint_failure_witness :
    ∃ w1, ClientWrapper.UpdateClient (fun _ _ => -1) 0 "127.0.0.1:9931" worldTb1 = .ok (false, w1) ∧
      ClientWrapper.GetClient 0 w1 = ClientWrapper.GetClient 0 worldTb1 ∧
      w1.wrappers = worldTb1.wrappers ∧ w1.tablets = worldTb1.tablets ∧
      w1.managers = worldTb1.managers :=
  C1_update_endpoint_failure (fun _ _ => -1) worldTb1 0 ⟨"tb1", some 0⟩ "127.0.0.1:9931"
    (by decide) (by decide)

/-- C4: when `Init()` of the new connection succeeds, `UpdateClient(endpoint)`
returns `true` and the following `GetClient()` returns a connection `c` that
did not exist before the call, built from the name of the handle and the
endpoint; the name of the handle is kept. -/
theorem C4_update_endpoint_success (init : InitOracle) (w : World) (self : Nat)
    (obj : ClientWrapper) (endpoint : String) (hself : w.wrappers[self]? = some obj)
    (hinit : init obj.name_ endpoint = 0) :
    ∃ w1 c, ClientWrapper.UpdateClient init self endpoint w = .ok (true, w1) ∧
      ClientWrapper.GetClient self w1 = .ok (some c) ∧
      w1.tablets[c]? = some ⟨obj.name_, endpoint⟩ ∧
      w.tablets[c]? = none ∧
      (w1.wrappers[self]?).map ClientWrapper.name_ = some obj.name_ := by
  refine ⟨_, w.tablets.length, updateClient_succeeded hself hinit, ?_, ?_, ?_, ?_⟩
  · simp [ClientWrapper.GetClient, getElem?_set_self_of_some hself]
  · simp
  · simp
  · simp [getElem?_set_self_of_some hself]

/-- Witness of C4: the handle of "tb1" moves to a new endpoint. -/
theorem C4_update_endpoint_success_witness :
    ∃ w1 c, ClientWrapper.UpdateClient (fun _ _ => 0) 0 "127.0.0.1:9931" worldTb1 = .ok (true, w1) ∧
      ClientWrapper.GetClient 0 w1 = .ok (some c) ∧
      w1.tablets[c]? = some ⟨"tb1", "127.0.0.1:9931"⟩ ∧
      worldTb1.tablets[c]? = none ∧
      (w1.wrappers[0]?).map ClientWrapper.name_ = some "tb1" :=
  C4_update_endpoint_success (fun _ _ => 0) worldTb1 0 ⟨"tb1", some 0⟩ "127.0.0.1:9931"
    (by decide) (by decide)

/-- C5: `UpdateClient(client)` with a pre-built connection returns `true`,
calls no `Init()` and builds no connection, and the following `GetClient()`
returns exactly `client`. -/
theorem C5_update_shared (w : World) (self : Nat) (obj : ClientWrapper) (client : Option Nat)
    (hself : w.wrappers[self]? = some obj) :
    ∃ w1, ClientWrapper.UpdateClientShared self client w = .ok (true, w1) ∧
      w1.inits = w.inits ∧ w1.tablets = w.tablets ∧
      ClientWrapper.GetClient self w1 = .ok client := by
  refine ⟨_, updateClientShared_eq client hself, rfl, rfl, ?_⟩
  simp [ClientWrapper.GetClient, getElem?_set_self_of_some hself]

/-- Witness of C5: a handle made by the one-argument constructor receives the
connection 0. -/
theorem C5_update_shared_witness :
    ∃ w1, ClientWrapper.UpdateClientShared 1 (some 0)
        (ClientWrapper.ClientWrapper "tb2" worldTb1).2 = .ok (true, w1) ∧
      w1.inits = (ClientWrapper.ClientWrapper "tb2" worldTb1).2.inits ∧
      w1.tablets = (ClientWrapper.ClientWrapper "tb2" worldTb1).2.tablets ∧
      ClientWrapper.GetClient 1 w1 = .ok (some 0) :=
  C5_update_shared (ClientWrapper.ClientWrapper "tb2" worldTb1).2 1 ⟨"tb2", none⟩ (some 0)
    (by decide)

/-- C7, as stated, fails: the handle made by `ClientWrapper("tb1")` exists and
its `GetClient()` returns the empty pointer, right after the construction and
still after an `UpdateClient(endpoint)` whose `Init()` returns -1. -/
theorem C7_counterexample :
    ClientWrapper.GetClient (ClientWrapper.ClientWrapper "tb1" World.empty).1
      (ClientWrapper.ClientWrapper "tb1" World.empty).2 = .ok none ∧
    (runOps 0 [.updateEndpoint (fun _ _ => -1) "127.0.0.1:9831"]
      (ClientWrapper.ClientWrapper "tb1" World.empty).2).bind (ClientWrapper.GetClient 0) =
        .ok none := by
  decide

theorem handleOp_run_keeps_client (self : Nat) (op : HandleOp) (w : World) (c : Nat)
    (hget : ClientWrapper.GetClient self w = .ok (some c))
    (hop : op.suppliesConnection = true) :
    ∃ b w1 c1, op.run self w = .ok (b, w1) ∧ ClientWrapper.GetClient self w1 = .ok (some c1) := by
  cases hself : w.wrappers[self]? with
  | none => simp [ClientWrapper.GetClient, hself] at hget
  | some obj =>
    have hobj : obj.tablet_client_ = some c := by
      simpa [ClientWrapper.GetClient, hself] using hget
    cases op with
    | updateEndpoint init endpoint =>
      by_cases hinit : init obj.name_ endpoint = 0
      · refine ⟨true, _, w.tablets.length, updateClient_succeeded hself hinit, ?_⟩
        simp [ClientWrapper.GetClient, getElem?_set_self_of_some hself]
      · refine ⟨false, _, c, updateClient_failed hself hinit, ?_⟩
        simp [ClientWrapper.GetClient, hself, hobj]
    | updateShared client =>
      cases client with
      | none => simp [HandleOp.suppliesConnection] at hop
      | some c1 =>
        refine ⟨true, _, c1, updateClientShared_eq (some c1) hself, ?_⟩
        simp [ClientWrapper.GetClient, getElem?_set_self_of_some hself]

theorem runOps_keeps_client (self : Nat) (ops : List HandleOp) :
    ∀ (w : World) (c : Nat), ClientWrapper.GetClient self w = .ok (some c) →
      (∀ op ∈ ops, op.suppliesConnection = true) →
      ∃ w1 c1, runOps self ops w = .ok w1 ∧ ClientWrapper.GetClient self w1 = .ok (some c1) := by
  induction ops with
  | nil =>
    intro w c hget _
    exact ⟨w, c, rfl, hget⟩
  | cons op rest ih =>
    intro w c hget hops
    obtain ⟨b, w1, c1, hrun, hget1⟩ :=
      handleOp_run_keeps_client self op w c hget (hops op (List.mem_cons_self _ _))
    obtain ⟨w2, c2, hrest, hget2⟩ :=
      ih w1 c1 hget1 (fun o ho => hops o (List.mem_cons_of_mem _ ho))
    exact ⟨w2, c2, by simp [runOps, hrun, hrest], hget2⟩

/-- C7, amended: a handle made by the two-argument constructor from a
non-empty connection publishes that connection; a successful
`UpdateClient(endpoint)` makes `GetClient()` non-empty on every handle; and a
handle whose `GetClient()` is non-empty keeps a non-empty `GetClient()` through
every sequence of `UpdateClient(endpoint)` calls, failed or not, and
`UpdateClient(client)` calls with a non-empty `client`. -/
theorem C7_client_stays_nonempty :
    (∀ (name : String) (c : Nat) (w : World),
      ClientWrapper.GetClient (ClientWrapper.ClientWrapperWithClient name (some c) w).1
        (ClientWrapper.ClientWrapperWithClient name (some c) w).2 = .ok (some c)) ∧
    (∀ (init : InitOracle) (self : Nat) (obj : ClientWrapper) (endpoint : String) (w : World),
      w.wrappers[self]? = some obj → init obj.name_ endpoint = 0 →
      ∃ w1 c1, ClientWrapper.UpdateClient init self endpoint w = .ok (true, w1) ∧
        ClientWrapper.GetClient self w1 = .ok (some c1)) ∧
    (∀ (self : Nat) (ops : List HandleOp) (w : World) (c : Nat),
      ClientWrapper.GetClient self w = .ok (some c) →
      (∀ op ∈ ops, op.suppliesConnection = true) →
      ∃ w1 c1, runOps self ops w = .ok w1 ∧ ClientWrapper.GetClient self w1 = .ok (some c1)) := by
  refine ⟨?_, ?_, fun self ops w c => runOps_keeps_client self ops w c⟩
  · intro name c w
    simp [ClientWrapper.GetClient, ClientWrapper.ClientWrapperWithClient]
  · intro init self obj endpoint w hself hinit
    refine ⟨_, w.tablets.length, updateClient_succeeded hself hinit, ?_⟩
    simp [ClientWrapper.GetClient, getElem?_set_self_of_some hself]

/-- Witness of C7: the handle of "tb1" goes through a failed update, a
successful update and the publication of a pre-built connection. -/
theorem C7_client_stays_nonempty_witness :
    ∃ w1 c1, runOps 0 [.updateEndpoint (fun _ _ => -1) "127.0.0.1:9931",
        .updateEndpoint (fun _ _ => 0) "127.0.0.1:9932", .updateShared (some 0)] worldTb1 = .ok w1 ∧
      ClientWrapper.GetClient 0 w1 = .ok (some c1) :=
  C7_client_stays_nonempty.2.2 0 _ worldTb1 0 (by decide) (by
    intro op hop
    simp only [List.mem_cons, List.mem_singleton, List.not_mem_nil, or_false] at hop
    rcases hop with rfl | rfl | rfl <;> rfl)

/-- C8, as stated, fails: the handle of "tb1" publishes the connection 0 to
"127.0.0.1:9831"; `UpdateClient("127.0.0.1:9831")` with a successful `Init()`
builds the connection 1 and the handle publishes it instead of 0. -/
theorem C8_counterexample :
    (worldTb1.tablets[0]?).map TabletClient.endpoint = some "127.0.0.1:9831" ∧
    ClientWrapper.GetClient 0 worldTb1 = .ok (some 0) ∧
    ClientWrapper.UpdateClient (fun _ _ => 0) 0 "127.0.0.1:9831" worldTb1 =
      .ok (true, worldTb1Again) ∧
    ClientWrapper.GetClient 0 worldTb1Again = .ok (some 1) ∧
    ClientWrapper.GetClient 0 worldTb1Again ≠ ClientWrapper.GetClient 0 worldTb1 := by
  decide

/-- C8, amended: on a handle whose connection `c` targets `endpoint`,
`UpdateClient(endpoint)` keeps `c` only when `Init()` fails; when `Init()`
succeeds the handle publishes a connection `c1` other than `c`, built from the
name of the handle and the same endpoint, and `c` itself is not altered. -/
theorem C8_update_same_endpoint (init : InitOracle) (w : World) (self : Nat)
    (obj : ClientWrapper) (c : Nat) (tc : TabletClient) (endpoint : String)
    (hself : w.wrappers[self]? = some obj) (hc : obj.tablet_client_ = some c)
    (htc : w.tablets[c]? = some tc) (hep : tc.endpoint = endpoint) :
    (init obj.name_ endpoint ≠ 0 →
      ∃ w1, ClientWrapper.UpdateClient init self endpoint w = .ok (false, w1) ∧
        ClientWrapper.GetClient self w1 = .ok (some c)) ∧
    (init obj.name_ endpoint = 0 →
      ∃ w1 c1, ClientWrapper.UpdateClient init self endpoint w = .ok (true, w1) ∧
        ClientWrapper.GetClient self w1 = .ok (some c1) ∧ c1 ≠ c ∧
        w1.tablets[c1]? = some ⟨obj.name_, tc.endpoint⟩ ∧ w1.tablets[c]? = some tc) := by
  have hlt : c < w.tablets.length := (List.getElem?_eq_some.1 htc).1
  subst hep
  constructor
  · intro hinit
    refine ⟨_, updateClient_failed hself hinit, ?_⟩
    simp [ClientWrapper.GetClient, hself, hc]
  · intro hinit
    refine ⟨_, w.tablets.length, updateClient_succeeded hself hinit, ?_, ?_, ?_, ?_⟩
    · simp [ClientWrapper.GetClient, getElem?_set_self_of_some hself]
    · omega
    · simp
    · simp [List.getElem?_append_left hlt, htc]

/-- Witness of C8: both outcomes of `Init()` on the handle of "tb1". -/
theorem C8_update_same_endpoint_witness :
    (∃ w1, ClientWrapper.UpdateClient (fun _ _ => -1) 0 "127.0.0.1:9831" worldTb1 =
        .ok (false, w1) ∧ ClientWrapper.GetClient 0 w1 = .ok (some 0)) ∧
    (∃ w1 c1, ClientWrapper.UpdateClient (fun _ _ => 0) 0 "127.0.0.1:9831" worldTb1 =
        .ok (true, w1) ∧ ClientWrapper.GetClient 0 w1 = .ok (some c1) ∧ c1 ≠ 0 ∧
        w1.tablets[c1]? = some ⟨"tb1", "127.0.0.1:9831"⟩ ∧
        w1.tablets[0]? = some ⟨"tb1", "127.0.0.1:9831"⟩) :=
  ⟨(C8_update_same_endpoint (fun _ _ => -1) worldTb1 0 ⟨"tb1", some 0⟩ 0
      ⟨"tb1", "127.0.0.1:9831"⟩ "127.0.0.1:9831" (by decide) rfl (by decide) rfl).1 (by decide),
   (C8_update_same_endpoint (fun _ _ => 0) worldTb1 0 ⟨"tb1", some 0⟩ 0
      ⟨"tb1", "127.0.0.1:9831"⟩ "127.0.0.1:9831" (by decide) rfl (by decide) rfl).2 (by decide)⟩

/-! ### Claims on `PartitionClientManager::GetLeader` and `TableClientManager` -/

/-- C6: for a routing entry whose leader handle is `h`, `GetLeader()` is
`h->GetClient()` in every world; after `h->UpdateClient(client)`, and after a
successful `h->UpdateClient(endpoint)`, the entry is what it was and its
`GetLeader()` returns the connection just published. -/
theorem C6_leader_follows_handle (w : World) (pm : Nat) (entry : PartitionClientManager)
    (h : Nat) (hpm : w.managers[pm]? = some entry) (hleader : entry.leader_ = some h) :
    PartitionClientManager.GetLeader pm w = ClientWrapper.GetClient h w ∧
    (∀ obj, w.wrappers[h]? = some obj →
      (∀ client, ∃ w1, ClientWrapper.UpdateClientShared h client w = .ok (true, w1) ∧
        w1.managers[pm]? = some entry ∧
        PartitionClientManager.GetLeader pm w1 = .ok client) ∧
      (∀ (init : InitOracle) endpoint, init obj.name_ endpoint = 0 →
        ∃ w1 c, ClientWrapper.UpdateClient init h endpoint w = .ok (true, w1) ∧
          w1.managers[pm]? = some entry ∧
          PartitionClientManager.GetLeader pm w1 = .ok (some c) ∧
          w1.tablets[c]? = some ⟨obj.name_, endpoint⟩)) := by
  refine ⟨by simp [PartitionClientManager.GetLeader, hpm, hleader, ClientWrapper.GetClientVia], ?_⟩
  intro obj hh
  constructor
  · intro client
    refine ⟨_, updateClientShared_eq client hh, hpm, ?_⟩
    simp [PartitionClientManager.GetLeader, hpm, hleader, ClientWrapper.GetClientVia,
      ClientWrapper.GetClient, getElem?_set_self_of_some hh]
  · intro init endpoint hinit
    refine ⟨_, w.tablets.length, updateClient_succeeded hh hinit, hpm, ?_, ?_⟩
    · simp [PartitionClientManager.GetLeader, hpm, hleader, ClientWrapper.GetClientVia,
        ClientWrapper.GetClient, getElem?_set_self_of_some hh]
    · simp

/-- Witness of C6: the entry 0 of `worldReplicated` and its leader handle 0,
which receives the pre-built connection 1. -/
theorem C6_leader_follows_handle_witness :
    PartitionClientManager.GetLeader 0 worldReplicated =
      ClientWrapper.GetClient 0 worldReplicated ∧
    ∃ w1, ClientWrapper.UpdateClientShared 0 (some 1) worldReplicated = .ok (true, w1) ∧
      w1.managers[0]? = some ⟨0, some 0, [some 1], 7⟩ ∧
      PartitionClientManager.GetLeader 0 w1 = .ok (some 1) :=
  ⟨(C6_leader_follows_handle worldReplicated 0 ⟨0, some 0, [some 1], 7⟩ 0
      (by decide) rfl).1,
   ((C6_leader_follows_handle worldReplicated 0 ⟨0, some 0, [some 1], 7⟩ 0
      (by decide) rfl).2 ⟨"tb1", some 0⟩ (by decide)).1 (some 1)⟩

theorem getPartitionClientManager_eq (t : TableClientManager) (pid : Nat) :
    t.GetPartitionClientManager pid = (t.partition_managers_[pid]?).getD none := by
  unfold TableClientManager.GetPartitionClientManager
  by_cases h : pid < t.partition_managers_.length
  · simp [h]
  · simp [h, List.getElem?_eq_none (Nat.le_of_not_lt h)]

/-- C3, as stated, fails: slot 0 of `tableOneSlot` holds an entry, the entry
was constructed with an empty `leader_`, and `GetTablets(0)` applies `->` to
that empty pointer: line 104 tests the entry only and line 73 dereferences
`leader_` without a test. -/
theorem C3_counterexample :
    tableOneSlot.GetPartitionClientManager 0 = some 0 ∧
    (worldNoLeader.managers[0]?).map PartitionClientManager.leader_ = some none ∧
    tableOneSlot.GetTablets 0 worldNoLeader = .error .nullDeref := by
  decide

/-- C3, amended: `GetTablets(pid)` is the `GetLeader()` of the entry
`GetPartitionClientManager(pid)` returns when that is non-empty; when it is
empty, which is the case for a `pid` without a slot and for a slot holding the
empty pointer, `GetTablets(pid)` is the empty connection and no fault; and when
the entry has its leader handle, `GetTablets(pid)` is the connection this
handle publishes and no fault. -/
theorem C3_leader_for (t : TableClientManager) (pid : Nat) (w : World) :
    (∀ pm, t.GetPartitionClientManager pid = some pm →
      t.GetTablets pid w = PartitionClientManager.GetLeader pm w) ∧
    (t.GetPartitionClientManager pid = none → t.GetTablets pid w = .ok none) ∧
    (t.partition_managers_.length ≤ pid → t.GetTablets pid w = .ok none) ∧
    (t.partition_managers_[pid]? = some none → t.GetTablets pid w = .ok none) ∧
    (∀ pm entry h obj, t.GetPartitionClientManager pid = some pm →
      w.managers[pm]? = some entry → entry.leader_ = some h → w.wrappers[h]? = some obj →
      t.GetTablets pid w = .ok obj.tablet_client_) := by
  refine ⟨?_, ?_, ?_, ?_, ?_⟩
  · intro pm hpm
    simp [TableClientManager.GetTablets, hpm]
  · intro hnone
    simp [TableClientManager.GetTablets, hnone]
  · intro hle
    simp [TableClientManager.GetTablets, getPartitionClientManager_eq,
      List.getElem?_eq_none hle]
  · intro hslot
    simp [TableClientManager.GetTablets, getPartitionClientManager_eq, hslot]
  · intro pm entry h obj hpm hentry hleader hobj
    simp [TableClientManager.GetTablets, hpm, PartitionClientManager.GetLeader, hentry,
      hleader, ClientWrapper.GetClientVia, ClientWrapper.GetClient, hobj]

/-- Witness of C3: `tableTwoSlots`, whose first slot holds the entry 0 of
`worldReplicated` and whose second slot is empty. -/
theorem C3_leader_for_witness :
    tableTwoSlots.GetTablets 0 worldReplicated =
      PartitionClientManager.GetLeader 0 worldReplicated ∧
    tableTwoSlots.GetTablets 1 worldReplicated = .ok none ∧
    tableTwoSlots.GetTablets 2 worldReplicated = .ok none ∧
    tableTwoSlots.GetTablets 1 worldReplicated = .ok none ∧
    tableTwoSlots.GetTablets 0 worldReplicated = .ok (some 0) :=
  ⟨(C3_leader_for tableTwoSlots 0 worldReplicated).1 0 (by decide),
   (C3_leader_for tableTwoSlots 1 worldReplicated).2.1 (by decide),
   (C3_leader_for tableTwoSlots 2 worldReplicated).2.2.1 (by decide),
   (C3_leader_for tableTwoSlots 1 worldReplicated).2.2.2.1 (by decide),
   (C3_leader_for tableTwoSlots 0 worldReplicated).2.2.2.2 0 ⟨0, some 0, [some 1], 7⟩ 0
      ⟨"tb1", some 0⟩ (by decide) (by decide) rfl (by decide)⟩

theorem updatePartitionClientManager_true {seed : Nat} {t t1 : TableClientManager}
    {p : PartitionSt} {cm : ClientManager} {w w1 : World}
    (h : t.UpdatePartitionClientManager seed p cm w = (true, t1, w1)) :
    p.pid < t.partition_managers_.length ∧
    ∃ leader followers, cm.GetClient p.leader = some leader ∧
      resolveFollowers cm p.follower = some followers ∧
      t1 = ⟨t.partition_managers_.set p.pid (some w.managers.length)⟩ ∧
      w1 = { w with managers := w.managers ++ [⟨p.pid, some leader, followers, seed⟩] } := by
  unfold TableClientManager.UpdatePartitionClientManager at h
  by_cases hlt : p.pid < t.partition_managers_.length
  · refine ⟨hlt, ?_⟩
    rw [if_pos hlt] at h
    cases hl : cm.GetClient p.leader with
    | none => simp [hl] at h
    | some leader =>
      cases hf : resolveFollowers cm p.follower with
      | none => simp [hl, hf] at h
      | some followers =>
        simp only [hl, hf, PartitionClientManager.PartitionClientManager, Prod.mk.injEq,
          true_and] at h
        exact ⟨leader, followers, rfl, rfl, h.1.symm, h.2.symm⟩
  · rw [if_neg hlt] at h
    simp at h

theorem updatePartitionClientManager_frame (seed : Nat) (t : TableClientManager)
    (p : PartitionSt) (cm : ClientManager) (w : World) (q i : Nat)
    (hq : p.pid ≠ q ∨ cm.GetClient p.leader = none ∨ resolveFollowers cm p.follower = none)
    (hi : i < w.managers.length) :
    (t.UpdatePartitionClientManager seed p cm w).2.1.GetPartitionClientManager q =
        t.GetPartitionClientManager q ∧
      (t.UpdatePartitionClientManager seed p cm w).2.2.managers[i]? = w.managers[i]? ∧
      i < (t.UpdatePartitionClientManager seed p cm w).2.2.managers.length := by
  unfold TableClientManager.UpdatePartitionClientManager
  by_cases hlt : p.pid < t.partition_managers_.length
  · rw [if_pos hlt]
    cases hl : cm.GetClient p.leader with
    | none => exact ⟨rfl, rfl, hi⟩
    | some leader =>
      cases hf : resolveFollowers cm p.follower with
      | none => exact ⟨rfl, rfl, hi⟩
      | some followers =>
        have hne : p.pid ≠ q := by
          rcases hq with h | h | h
          · exact h
          · simp [hl] at h
          · simp [hf] at h
        refine ⟨?_, ?_, ?_⟩
        · simp [getPartitionClientManager_eq, List.getElem?_set, hne]
        · simp [PartitionClientManager.PartitionClientManager, List.getElem?_append_left hi]
        · simp [PartitionClientManager.PartitionClientManager]
          omega
  · rw [if_neg hlt]
    exact ⟨rfl, rfl, hi⟩

theorem applyUpdates_frame (seed : Nat) (q i : Nat) (us : List (PartitionSt × ClientManager)) :
    ∀ (t : TableClientManager) (w : World),
      (∀ u ∈ us, u.1.pid ≠ q ∨ u.2.GetClient u.1.leader = none ∨
        resolveFollowers u.2 u.1.follower = none) →
      i < w.managers.length →
      (TableClientManager.applyUpdates seed us t w).1.GetPartitionClientManager q =
          t.GetPartitionClientManager q ∧
        (TableClientManager.applyUpdates seed us t w).2.managers[i]? = w.managers[i]? := by
  induction us with
  | nil =>
    intro t w _ _
    exact ⟨rfl, rfl⟩
  | cons u rest ih =>
    intro t w hus hi
    obtain ⟨h1, h2, h3⟩ := updatePartitionClientManager_frame seed t u.1 u.2 w q i
      (hus u (List.mem_cons_self _ _)) hi
    obtain ⟨h4, h5⟩ := ih _ _ (fun v hv => hus v (List.mem_cons_of_mem _ hv)) h3
    simp only [TableClientManager.applyUpdates]
    exact ⟨h4.trans h1, h5.trans h2⟩

/-- C2: `GetPartitionClientManager(pid)` returns the empty pointer when `pid`
is not below the number of slots, and otherwise the content of slot `pid`;
after a successful `UpdatePartitionClientManager` for `pid`, followed by any
updates that are for other partition ids or fail to resolve a name, that
content is the entry this update built from the handles the registry resolved
for the leader and the followers. -/
theorem C2_entry (t : TableClientManager) (pid : Nat) :
    (t.partition_managers_.length ≤ pid → t.GetPartitionClientManager pid = none) ∧
    (∀ hlt : pid < t.partition_managers_.length,
      t.GetPartitionClientManager pid = t.partition_managers_[pid]) ∧
    (∀ (seed : Nat) (p : PartitionSt) (cm : ClientManager) (w : World) (t1 : TableClientManager)
      (w1 : World) (us : List (PartitionSt × ClientManager)),
      p.pid = pid → t.UpdatePartitionClientManager seed p cm w = (true, t1, w1) →
      (∀ u ∈ us, u.1.pid ≠ pid ∨ u.2.GetClient u.1.leader = none ∨
        resolveFollowers u.2 u.1.follower = none) →
      ∃ leader followers, cm.GetClient p.leader = some leader ∧
        resolveFollowers cm p.follower = some followers ∧
        (TableClientManager.applyUpdates seed us t1 w1).1.GetPartitionClientManager pid =
          some w.managers.length ∧
        (TableClientManager.applyUpdates seed us t1 w1).2.managers[w.managers.length]? =
          some ⟨pid, some leader, followers, seed⟩) := by
  refine ⟨?_, ?_, ?_⟩
  · intro hle
    simp [TableClientManager.GetPartitionClientManager, Nat.not_lt.2 hle]
  · intro hlt
    simp [TableClientManager.GetPartitionClientManager, hlt]
  · intro seed p cm w t1 w1 us hpid hupd hus
    obtain ⟨hlt, leader, followers, hl, hf, ht1, hw1⟩ := updatePartitionClientManager_true hupd
    subst hpid
    have hi : w.managers.length < w1.managers.length := by
      rw [hw1]
      simp
    obtain ⟨h1, h2⟩ := applyUpdates_frame seed p.pid w.managers.length us t1 w1 hus hi
    refine ⟨leader, followers, hl, hf, ?_, ?_⟩
    · rw [h1, ht1]
      simp [getPartitionClientManager_eq, List.getElem?_set, hlt]
    · rw [h2, hw1]
      simp

/-- Witness of C2: `tableTwoSlots` read at 2 and at 0, then updated for
partition 1, afterwards for partition 0 and, with the unknown leader "tb9",
for partition 1 again. -/
theorem C2_entry_witness :
    tableTwoSlots.GetPartitionClientManager 2 = none ∧
    tableTwoSlots.GetPartitionClientManager 0 = some 0 ∧
    ∃ leader followers, registryTb.GetClient "tb1" = some leader ∧
      resolveFollowers registryTb ["tb2"] = some followers ∧
      (TableClientManager.applyUpdates 7 [(⟨0, "tb2", []⟩, registryTb), (⟨1, "tb9", []⟩, registryTb)]
        ⟨[some 0, some 1]⟩
        { worldLeaderFollower with
          managers := worldLeaderFollower.managers ++ [⟨1, some 0, [some 1], 7⟩] }
        ).1.GetPartitionClientManager 1 = some worldLeaderFollower.managers.length ∧
      (TableClientManager.applyUpdates 7 [(⟨0, "tb2", []⟩, registryTb), (⟨1, "tb9", []⟩, registryTb)]
        ⟨[some 0, some 1]⟩
        { worldLeaderFollower with
          managers := worldLeaderFollower.managers ++ [⟨1, some 0, [some 1], 7⟩] }
        ).2.managers[worldLeaderFollower.managers.length]? =
          some ⟨1, some leader, followers, 7⟩ :=
  ⟨(C2_entry tableTwoSlots 2).1 (by decide),
   (C2_entry tableTwoSlots 0).2.1 (by decide),
   (C2_entry tableTwoSlots 1).2.2 7 ⟨1, "tb1", ["tb2"]⟩ registryTb worldLeaderFollower
      ⟨[some 0, some 1]⟩
      { worldLeaderFollower with
        managers := worldLeaderFollower.managers ++ [⟨1, some 0, [some 1], 7⟩] }
      [(⟨0, "tb2", []⟩, registryTb), (⟨1, "tb9", []⟩, registryTb)] rfl (by decide) (by decide)⟩

/-! ### Claims on `PartitionClientManager::GetFollower` -/

/-- C9, as stated, fails: the entry of `worldLeaderFollower` has the follower
list `[tb2]`, the handle of "tb2" was made by `ClientWrapper("tb2")`, and
`GetFollower()` returns the empty pointer. -/
theorem C9_counterexample :
    (worldLeaderFollower.managers[0]?).map PartitionClientManager.followers_ = some [some 1] ∧
    ClientWrapper.GetClient 1 worldLeaderFollower = .ok none ∧
    (PartitionClientManager.GetFollower countingNext 0 worldLeaderFollower).map Prod.fst =
      .ok none := by
  decide

/-- C9, amended: with an empty follower list `GetFollower()` is `GetLeader()`;
with a non-empty list it is the `GetClient()` of one of the handles of the
list; it is non-empty when every handle of the list publishes a connection;
the call leaves the leader, the follower list and every handle as they were. -/
theorem C9_follower (next : Nat → Nat × Nat) (w : World) (pm : Nat)
    (entry : PartitionClientManager) (hpm : w.managers[pm]? = some entry) :
    (entry.followers_ = [] →
      (PartitionClientManager.GetFollower next pm w).map Prod.fst =
        PartitionClientManager.GetLeader pm w) ∧
    (entry.followers_ ≠ [] → ∃ p ∈ entry.followers_,
      (PartitionClientManager.GetFollower next pm w).map Prod.fst =
        ClientWrapper.GetClientVia p w) ∧
    (entry.followers_ ≠ [] →
      (∀ p ∈ entry.followers_, ∃ c, ClientWrapper.GetClientVia p w = .ok (some c)) →
      ∃ c w1, PartitionClientManager.GetFollower next pm w = .ok (some c, w1)) ∧
    (∀ r w1, PartitionClientManager.GetFollower next pm w = .ok (r, w1) →
      w1.wrappers = w.wrappers ∧ w1.tablets = w.tablets ∧
      ∃ entry1, w1.managers[pm]? = some entry1 ∧ entry1.followers_ = entry.followers_ ∧
        entry1.leader_ = entry.leader_ ∧ entry1.pid_ = entry.pid_) := by
  have hmod : entry.followers_ ≠ [] →
      ∃ p, p ∈ entry.followers_ ∧
        entry.followers_[(next entry.rand_).1 % entry.followers_.length]? = some p := by
    intro hne
    have hpos : 0 < entry.followers_.length := List.length_pos.2 hne
    have hlt : (next entry.rand_).1 % entry.followers_.length < entry.followers_.length :=
      Nat.mod_lt _ hpos
    exact ⟨entry.followers_[(next entry.rand_).1 % entry.followers_.length],
      List.getElem_mem _, List.getElem?_eq_getElem hlt⟩
  refine ⟨?_, ?_, ?_, ?_⟩
  · intro hnil
    simp only [PartitionClientManager.GetFollower, hpm, hnil, List.length_nil, if_true,
      PartitionClientManager.GetLeader]
    cases ClientWrapper.GetClientVia entry.leader_ w <;> rfl
  · intro hne
    obtain ⟨p, hp, hget⟩ := hmod hne
    have hlen : entry.followers_.length ≠ 0 := fun h => hne (List.length_eq_zero.1 h)
    refine ⟨p, hp, ?_⟩
    simp only [PartitionClientManager.GetFollower, hpm, hlen, if_false, hget]
    cases ClientWrapper.GetClientVia p w <;> rfl
  · intro hne hall
    obtain ⟨p, hp, hget⟩ := hmod hne
    obtain ⟨c, hc⟩ := hall p hp
    have hlen : entry.followers_.length ≠ 0 := fun h => hne (List.length_eq_zero.1 h)
    refine ⟨c, { w with managers := w.managers.set pm { entry with rand_ := (next entry.rand_).2 } },
      ?_⟩
    simp only [PartitionClientManager.GetFollower, hpm, hlen, if_false, hget, hc]
  · intro r w1 hrun
    by_cases hnil : entry.followers_ = []
    · simp only [PartitionClientManager.GetFollower, hpm, hnil, List.length_nil, if_true] at hrun
      cases hv : ClientWrapper.GetClientVia entry.leader_ w with
      | error f => simp [hv] at hrun
      | ok c =>
        simp only [hv, Except.ok.injEq, Prod.mk.injEq] at hrun
        obtain ⟨_, rfl⟩ := hrun
        exact ⟨rfl, rfl, entry, hpm, rfl, rfl, rfl⟩
    · obtain ⟨p, hp, hget⟩ := hmod hnil
      have hlen : entry.followers_.length ≠ 0 := fun h => hnil (List.length_eq_zero.1 h)
      simp only [PartitionClientManager.GetFollower, hpm, hlen, if_false, hget] at hrun
      cases hv : ClientWrapper.GetClientVia p w with
      | error f => simp [hv] at hrun
      | ok c =>
        simp only [hv, Except.ok.injEq, Prod.mk.injEq] at hrun
        obtain ⟨_, rfl⟩ := hrun
        exact ⟨rfl, rfl, _, getElem?_set_self_of_some hpm, rfl, rfl, rfl⟩

/-- Witness of C9: the two entries of `worldReplicated`, one without and one
with a follower. -/
theorem C9_follower_witness :
    (PartitionClientManager.GetFollower countingNext 1 worldReplicated).map Prod.fst =
      PartitionClientManager.GetLeader 1 worldReplicated ∧
    (∃ p ∈ [some 1],
      (PartitionClientManager.GetFollower countingNext 0 worldReplicated).map Prod.fst =
        ClientWrapper.GetClientVia p worldReplicated) ∧
    (∃ c w1, PartitionClientManager.GetFollower countingNext 0 worldReplicated =
      .ok (some c, w1)) :=
  ⟨(C9_follower countingNext worldReplicated 1 ⟨1, some 0, [], 7⟩ (by decide)).1 rfl,
   (C9_follower countingNext worldReplicated 0 ⟨0, some 0, [some 1], 7⟩ (by decide)).2.1
      (by decide),
   (C9_follower countingNext worldReplicated 0 ⟨0, some 0, [some 1], 7⟩ (by decide)).2.2.1
      (by decide) (by
        intro p hp
        have hp1 : p = some 1 := by simpa using hp
        subst hp1
        exact ⟨1, by decide⟩)⟩

/-! ### The registry: helper lemmas -/

theorem mapFind_mapPut_self {β : Type} (m : List (String × β)) (k : String) (v : β) :
    mapFind (mapPut m k v) k = some v := by
  induction m with
  | nil => simp [mapPut, mapFind]
  | cons x rest ih =>
    obtain ⟨k1, v1⟩ := x
    by_cases hk : k1 = k
    · simp [mapPut, mapFind, hk]
    · simp [mapPut, mapFind, hk, ih]

theorem mapFind_mapPut_ne {β : Type} (m : List (String × β)) (k k2 : String) (v : β)
    (hne : k2 ≠ k) : mapFind (mapPut m k v) k2 = mapFind m k2 := by
  induction m with
  | nil =>
    have hne2 : ¬ k = k2 := fun h => hne h.symm
    simp [mapPut, mapFind, hne2]
  | cons x rest ih =>
    obtain ⟨k1, v1⟩ := x
    have hne2 : ¬ k = k2 := fun h => hne h.symm
    by_cases hk : k1 = k
    · subst hk
      simp [mapPut, mapFind, hne2]
    · by_cases hk2 : k1 = k2
      · subst hk2
        simp [mapPut, mapFind, hk]
      · simp [mapPut, mapFind, hk, hk2, ih]

theorem mem_of_mapFind {β : Type} (m : List (String × β)) (k : String) (v : β)
    (h : mapFind m k = some v) : (k, v) ∈ m := by
  induction m with
  | nil => simp [mapFind] at h
  | cons x rest ih =>
    obtain ⟨k1, v1⟩ := x
    by_cases hk : k1 = k
    · simp only [mapFind, hk, if_true, Option.some.injEq] at h
      simp [hk, h]
    · simp only [mapFind, hk, if_false] at h
      exact List.mem_cons_of_mem _ (ih h)

theorem mem_mapPut {β : Type} (m : List (String × β)) (k : String) (v : β) (p : String × β)
    (h : p ∈ mapPut m k v) : p ∈ m ∨ p = (k, v) := by
  induction m with
  | nil =>
    simp only [mapPut, List.mem_singleton] at h
    exact Or.inr h
  | cons x rest ih =>
    obtain ⟨k1, v1⟩ := x
    by_cases hk : k1 = k
    · simp only [mapPut, hk, if_true, List.mem_cons] at h
      rcases h with h | h
      · exact Or.inr h
      · exact Or.inl (List.mem_cons_of_mem _ h)
    · simp only [mapPut, hk, if_false, List.mem_cons] at h
      rcases h with h | h
      · exact Or.inl (by simp [h])
      · rcases ih h with h2 | h2
        · exact Or.inl (List.mem_cons_of_mem _ h2)
        · exact Or.inr h2

theorem wf_empty (w : World) : (ClientManager.mk [] []).WF w := by
  intro p hp
  simp at hp

theorem wf_handle {cm : ClientManager} {w : World} {name : String} {h : Nat}
    (hwf : cm.WF w) (hget : cm.GetClient name = some h) :
    ∃ obj, w.wrappers[h]? = some obj ∧ obj.name_ = name := by
  unfold ClientManager.GetClient at hget
  cases hfind : mapFind cm.clients_ name with
  | none => simp [hfind] at hget
  | some p =>
    simp only [hfind] at hget
    subst hget
    have hmem := mem_of_mapFind _ _ _ hfind
    have hname := hwf _ hmem h rfl
    cases hobj : w.wrappers[h]? with
    | none => simp [hobj] at hname
    | some obj =>
      refine ⟨obj, rfl, ?_⟩
      simpa [hobj] using hname

theorem stateOf_congr {cm cm1 : ClientManager} {w w1 : World} {name : String}
    (hreal : mapFind cm1.real_endpoint_map_ name = mapFind cm.real_endpoint_map_ name)
    (hget : cm1.GetClient name = cm.GetClient name)
    (hobj : ∀ h, cm.GetClient name = some h → w1.wrappers[h]? = w.wrappers[h]?) :
    cm1.stateOf w1 name = cm.stateOf w name := by
  unfold ClientManager.stateOf
  rw [hreal, hget]
  cases hh : cm.GetClient name with
  | none => rfl
  | some h => simp [hobj h hh]

theorem set_keeps_names {l : List ClientWrapper} {h : Nat} {obj : ClientWrapper}
    (hobj : l[h]? = some obj) (c : Option Nat) (i : Nat) :
    ((l.set h ⟨obj.name_, c⟩)[i]?).map ClientWrapper.name_ = (l[i]?).map ClientWrapper.name_ := by
  by_cases hi : h = i
  · subst hi
    simp [getElem?_set_self_of_some hobj, hobj]
  · simp [List.getElem?_set_ne hi]

theorem wf_same_wrappers {cm : ClientManager} {w w1 : World} (hwf : cm.WF w)
    (hw : w1.wrappers = w.wrappers) : cm.WF w1 := by
  intro p hp h hh
  rw [hw]
  exact hwf p hp h hh

theorem step_existing_same (init : InitOracle) (cm : ClientManager) (w : World)
    (kv : String × String) (h : Nat) (hget : cm.GetClient kv.1 = some h)
    (hreal : mapFind cm.real_endpoint_map_ kv.1 = some kv.2) :
    ClientManager.UpdateClientStep init cm kv w = .ok (true, cm, w) := by
  simp [ClientManager.UpdateClientStep, hget, hreal]

theorem step_existing_ok (init : InitOracle) (cm : ClientManager) (w : World)
    (kv : String × String) (h : Nat) (obj : ClientWrapper) (hget : cm.GetClient kv.1 = some h)
    (hreal : mapFind cm.real_endpoint_map_ kv.1 ≠ some kv.2)
    (hobj : w.wrappers[h]? = some obj) (hinit : init obj.name_ kv.2 = 0) :
    ClientManager.UpdateClientStep init cm kv w =
      .ok (true, { cm with real_endpoint_map_ := mapPut cm.real_endpoint_map_ kv.1 kv.2 },
        { tablets := w.tablets ++ [⟨obj.name_, kv.2⟩]
          wrappers := w.wrappers.set h ⟨obj.name_, some w.tablets.length⟩
          managers := w.managers
          inits := w.inits ++ [(obj.name_, kv.2)] }) := by
  simp [ClientManager.UpdateClientStep, hget, hreal, updateClient_succeeded hobj hinit]

theorem step_existing_failed (init : InitOracle) (cm : ClientManager) (w : World)
    (kv : String × String) (h : Nat) (obj : ClientWrapper) (hget : cm.GetClient kv.1 = some h)
    (hreal : mapFind cm.real_endpoint_map_ kv.1 ≠ some kv.2)
    (hobj : w.wrappers[h]? = some obj) (hinit : init obj.name_ kv.2 ≠ 0) :
    ClientManager.UpdateClientStep init cm kv w =
      .ok (false, cm, { w with inits := w.inits ++ [(obj.name_, kv.2)] }) := by
  simp [ClientManager.UpdateClientStep, hget, hreal, updateClient_failed hobj hinit]

theorem step_new_ok (init : InitOracle) (cm : ClientManager) (w : World)
    (kv : String × String) (hget : cm.GetClient kv.1 = none) (hinit : init kv.1 kv.2 = 0) :
    ClientManager.UpdateClientStep init cm kv w =
      .ok (true,
        { real_endpoint_map_ := mapPut cm.real_endpoint_map_ kv.1 kv.2
          clients_ := mapPut cm.clients_ kv.1 (some w.wrappers.length) },
        { tablets := w.tablets ++ [⟨kv.1, kv.2⟩]
          wrappers := (w.wrappers ++ [ClientWrapper.mk kv.1 none]).set w.wrappers.length
            (ClientWrapper.mk kv.1 (some w.tablets.length))
          managers := w.managers
          inits := w.inits ++ [(kv.1, kv.2)] }) := by
  have hmade : (ClientWrapper.ClientWrapper kv.1 w).2.wrappers[w.wrappers.length]? =
      some ⟨kv.1, none⟩ := by
    simp [ClientWrapper.ClientWrapper]
  have hupd := @updateClient_succeeded init _ _ _ kv.2 hmade hinit
  simp only [ClientWrapper.ClientWrapper] at hupd
  simp [ClientManager.UpdateClientStep, hget, ClientWrapper.ClientWrapper, hupd]

theorem step_new_failed (init : InitOracle) (cm : ClientManager) (w : World)
    (kv : String × String) (hget : cm.GetClient kv.1 = none) (hinit : init kv.1 kv.2 ≠ 0) :
    ClientManager.UpdateClientStep init cm kv w =
      .ok (false, cm, { w with inits := w.inits ++ [(kv.1, kv.2)] }) := by
  have hmade : (ClientWrapper.ClientWrapper kv.1 w).2.wrappers[w.wrappers.length]? =
      some ⟨kv.1, none⟩ := by
    simp [ClientWrapper.ClientWrapper]
  have hupd := @updateClient_failed init _ _ _ kv.2 hmade hinit
  simp only [ClientWrapper.ClientWrapper] at hupd
  simp [ClientManager.UpdateClientStep, hget, ClientWrapper.ClientWrapper, hupd]

theorem updateClientStep_spec (init : InitOracle) (cm : ClientManager) (w : World)
    (kv : String × String) (hwf : cm.WF w) :
    ∃ b cm1 w1, ClientManager.UpdateClientStep init cm kv w = .ok (b, cm1, w1) ∧
      cm1.WF w1 ∧ w.tablets <+: w1.tablets ∧
      (∀ name, name ≠ kv.1 → cm1.stateOf w1 name = cm.stateOf w name) ∧
      (b = true ↔ (cm.needsInit kv → init kv.1 kv.2 = 0)) ∧
      (cm.needsInit kv → init kv.1 kv.2 = 0 → cm1.publishes w1 kv.1 kv.2) ∧
      (¬ (cm.needsInit kv ∧ init kv.1 kv.2 = 0) → cm1.stateOf w1 kv.1 = cm.stateOf w kv.1) := by
  cases hget : cm.GetClient kv.1 with
  | some h =>
    obtain ⟨obj, hobj, hname⟩ := wf_handle hwf hget
    by_cases hreal : mapFind cm.real_endpoint_map_ kv.1 = some kv.2
    · have hno : ¬ cm.needsInit kv := by
        simp [ClientManager.needsInit, hget, hreal]
      refine ⟨true, cm, w, step_existing_same init cm w kv h hget hreal, hwf,
        List.prefix_refl _, fun _ _ => rfl, ?_, fun hn => absurd hn hno, fun _ => rfl⟩
      simp [hno]
    · have hyes : cm.needsInit kv := Or.inr hreal
      by_cases hinit : init kv.1 kv.2 = 0
      · have hinit2 : init obj.name_ kv.2 = 0 := by rw [hname]; exact hinit
        refine ⟨true, _, _, step_existing_ok init cm w kv h obj hget hreal hobj hinit2,
          ?_, ?_, ?_, ?_, ?_, ?_⟩
        · intro p hp h2 hh2
          have hold := hwf p hp h2 hh2
          simpa [set_keeps_names hobj] using hold
        · exact List.prefix_append _ _
        · intro name hne
          apply stateOf_congr
          · exact mapFind_mapPut_ne _ _ _ _ hne
          · rfl
          · intro h2 hh2
            obtain ⟨obj2, hobj2, hname2⟩ := wf_handle hwf hh2
            have hne2 : h ≠ h2 := by
              intro heq
              subst heq
              rw [hobj] at hobj2
              cases hobj2
              exact hne (hname2.symm.trans hname)
            simp [List.getElem?_set_ne hne2]
        · simp [hinit]
        · intro _ _
          refine ⟨h, w.tablets.length, hget, ?_, ?_, ?_⟩
          · simp [getElem?_set_self_of_some hobj, hname]
          · simp [hname]
          · exact mapFind_mapPut_self _ _ _
        · intro hcon
          exact absurd ⟨hyes, hinit⟩ hcon
      · have hinit2 : init obj.name_ kv.2 ≠ 0 := by rw [hname]; exact hinit
        refine ⟨false, _, _, step_existing_failed init cm w kv h obj hget hreal hobj hinit2,
          wf_same_wrappers hwf rfl, List.prefix_refl _, fun _ _ => rfl, ?_,
          fun _ h0 => absurd h0 hinit, fun _ => rfl⟩
        simp [hyes, hinit]
  | none =>
    have hyes : cm.needsInit kv := Or.inl hget
    by_cases hinit : init kv.1 kv.2 = 0
    · refine ⟨true, _, _, step_new_ok init cm w kv hget hinit, ?_, ?_, ?_, ?_, ?_, ?_⟩
      · intro p hp h2 hh2
        rcases mem_mapPut _ _ _ _ hp with hold | hnew
        · have hnm := hwf p hold h2 hh2
          have hlt : h2 < w.wrappers.length := by
            cases hobj2 : w.wrappers[h2]? with
            | none => simp [hobj2] at hnm
            | some obj2 => exact (List.getElem?_eq_some.1 hobj2).1
          have hne2 : w.wrappers.length ≠ h2 := by omega
          simpa [List.getElem?_set_ne hne2, List.getElem?_append_left hlt] using hnm
        · subst hnew
          simp only [Option.some.injEq] at hh2
          subst hh2
          simp
      · exact List.prefix_append _ _
      · intro name hne
        apply stateOf_congr
        · exact mapFind_mapPut_ne _ _ _ _ hne
        · simp [ClientManager.GetClient, mapFind_mapPut_ne _ _ _ _ hne]
        · intro h2 hh2
          obtain ⟨obj2, hobj2, _⟩ := wf_handle hwf hh2
          have hlt : h2 < w.wrappers.length := (List.getElem?_eq_some.1 hobj2).1
          have hne2 : w.wrappers.length ≠ h2 := by omega
          simp [List.getElem?_set_ne hne2, List.getElem?_append_left hlt]
      · simp [hinit]
      · intro _ _
        refine ⟨w.wrappers.length, w.tablets.length, ?_, ?_, ?_, ?_⟩
        · simp [ClientManager.GetClient, mapFind_mapPut_self]
        · simp
        · simp
        · exact mapFind_mapPut_self _ _ _
      · intro hcon
        exact absurd ⟨hyes, hinit⟩ hcon
    · refine ⟨false, _, _, step_new_failed init cm w kv hget hinit,
        wf_same_wrappers hwf rfl, List.prefix_refl _, fun _ _ => rfl, ?_,
        fun _ h0 => absurd h0 hinit, fun _ => rfl⟩
      simp [hyes, hinit]

theorem needsInit_congr {cm cm1 : ClientManager} {w w1 : World} {kv : String × String}
    (h : cm1.stateOf w1 kv.1 = cm.stateOf w kv.1) : cm1.needsInit kv ↔ cm.needsInit kv := by
  simp only [ClientManager.stateOf, Prod.mk.injEq] at h
  obtain ⟨h1, h2, _⟩ := h
  simp [ClientManager.needsInit, h1, h2]

theorem prefix_getElem? {α : Type} {l l1 : List α} (hpre : l <+: l1) {c : Nat} {x : α}
    (hc : l[c]? = some x) : l1[c]? = some x := by
  obtain ⟨t, rfl⟩ := hpre
  have hlt : c < l.length := (List.getElem?_eq_some.1 hc).1
  simp [List.getElem?_append_left hlt, hc]

theorem publishes_of_stateOf {cm cm1 : ClientManager} {w w1 : World} {name endpoint : String}
    (hpub : cm.publishes w name endpoint)
    (hstate : cm1.stateOf w1 name = cm.stateOf w name) (hpre : w.tablets <+: w1.tablets) :
    cm1.publishes w1 name endpoint := by
  obtain ⟨h, c, hget, hobj, htc, hreal⟩ := hpub
  simp only [ClientManager.stateOf, Prod.mk.injEq] at hstate
  obtain ⟨h1, h2, h3⟩ := hstate
  refine ⟨h, c, h2.trans hget, ?_, prefix_getElem? hpre htc, h1.trans hreal⟩
  rw [h2, hget] at h3
  simpa [hobj] using h3

theorem updateClient_spec (init : InitOracle) (m : List (String × String)) :
    ∀ (cm : ClientManager) (w : World), cm.WF w → (m.map Prod.fst).Nodup →
    ∃ ok cm1 w1, ClientManager.UpdateClient init m cm w = .ok (ok, cm1, w1) ∧
      cm1.WF w1 ∧ w.tablets <+: w1.tablets ∧
      (∀ name, name ∉ m.map Prod.fst → cm1.stateOf w1 name = cm.stateOf w name) ∧
      (ok = true ↔ ∀ kv ∈ m, cm.needsInit kv → init kv.1 kv.2 = 0) ∧
      (∀ kv ∈ m, cm.needsInit kv → init kv.1 kv.2 = 0 → cm1.publishes w1 kv.1 kv.2) ∧
      (∀ kv ∈ m, ¬ (cm.needsInit kv ∧ init kv.1 kv.2 = 0) →
        cm1.stateOf w1 kv.1 = cm.stateOf w kv.1) := by
  induction m with
  | nil =>
    intro cm w hwf _
    exact ⟨true, cm, w, rfl, hwf, List.prefix_refl _, fun _ _ => rfl, by simp, by simp, by simp⟩
  | cons kv rest ih =>
    intro cm w hwf hnodup
    have hnd : kv.1 ∉ rest.map Prod.fst ∧ (rest.map Prod.fst).Nodup := by
      simpa using hnodup
    obtain ⟨hhead, hrest⟩ := hnd
    obtain ⟨b, cmA, wA, hstep, hwfA, hpreA, hframeA, hbA, hpubA, hsameA⟩ :=
      updateClientStep_spec init cm w kv hwf
    obtain ⟨ok2, cm1, w1, hrun, hwf1, hpre1, hframe1, hok1, hpub1, hsame1⟩ :=
      ih cmA wA hwfA hrest
    have hne : ∀ kv2 ∈ rest, kv2.1 ≠ kv.1 := by
      intro kv2 hkv2 heq
      exact hhead (heq ▸ List.mem_map_of_mem Prod.fst hkv2)
    have hneeds : ∀ kv2 ∈ rest, (cmA.needsInit kv2 ↔ cm.needsInit kv2) := fun kv2 hkv2 =>
      needsInit_congr (hframeA kv2.1 (hne kv2 hkv2))
    refine ⟨b && ok2, cm1, w1, ?_, hwf1, hpreA.trans hpre1, ?_, ?_, ?_, ?_⟩
    · simp [ClientManager.UpdateClient, hstep, hrun]
    · intro name hname
      have hn : name ≠ kv.1 ∧ name ∉ rest.map Prod.fst := by
        simpa using hname
      exact (hframe1 name hn.2).trans (hframeA name hn.1)
    · rw [Bool.and_eq_true, hbA, hok1]
      constructor
      · rintro ⟨h1, h2⟩ kv2 hkv2 hn
        rcases List.mem_cons.1 hkv2 with heq | hmem
        · subst heq
          exact h1 hn
        · exact h2 kv2 hmem ((hneeds kv2 hmem).2 hn)
      · intro hall
        refine ⟨hall kv (List.mem_cons_self _ _), ?_⟩
        intro kv2 hkv2 hn
        exact hall kv2 (List.mem_cons_of_mem _ hkv2) ((hneeds kv2 hkv2).1 hn)
    · intro kv2 hkv2 hn hinit
      rcases List.mem_cons.1 hkv2 with heq | hmem
      · subst heq
        exact publishes_of_stateOf (hpubA hn hinit) (hframe1 _ hhead) hpre1
      · exact hpub1 kv2 hmem ((hneeds kv2 hmem).2 hn) hinit
    · intro kv2 hkv2 hnot
      rcases List.mem_cons.1 hkv2 with heq | hmem
      · subst heq
        exact (hframe1 _ hhead).trans (hsameA hnot)
      · have hnot2 : ¬ (cmA.needsInit kv2 ∧ init kv2.1 kv2.2 = 0) := fun hc =>
          hnot ⟨(hneeds kv2 hmem).1 hc.1, hc.2⟩
        exact (hsame1 kv2 hmem hnot2).trans (hframeA kv2.1 (hne kv2 hmem))

/-! ### Claim on `ClientManager::UpdateClient` -/

/-- C10: for a well-formed registry and a batch with pairwise different
names, `UpdateClient(real_ep_map)` returns; every name whose connection is
initialized with success ends with a handle publishing a connection built from
the name and its new endpoint; every name whose initialization fails keeps its
recorded endpoint, its handle and the handle's object; names outside the batch
keep their state as well; connections made before the call are unaltered; the
result is `false` as soon as one initialization fails and `true` when none
does; the registry stays well formed. -/
theorem C10_reconcile (init : InitOracle) (m : List (String × String)) (cm : ClientManager)
    (w : World) (hwf : cm.WF w) (hnodup : (m.map Prod.fst).Nodup) :
    ∃ ok cm1 w1, ClientManager.UpdateClient init m cm w = .ok (ok, cm1, w1) ∧
      (∀ kv ∈ m, cm.needsInit kv → init kv.1 kv.2 = 0 → cm1.publishes w1 kv.1 kv.2) ∧
      (∀ kv ∈ m, cm.needsInit kv → init kv.1 kv.2 ≠ 0 →
        cm1.stateOf w1 kv.1 = cm.stateOf w kv.1) ∧
      ((∃ kv ∈ m, cm.needsInit kv ∧ init kv.1 kv.2 ≠ 0) → ok = false) ∧
      ((∀ kv ∈ m, cm.needsInit kv → init kv.1 kv.2 = 0) → ok = true) ∧
      (∀ name, name ∉ m.map Prod.fst → cm1.stateOf w1 name = cm.stateOf w name) ∧
      w.tablets <+: w1.tablets ∧ cm1.WF w1 := by
  obtain ⟨ok, cm1, w1, hrun, hwf1, hpre, hframe, hok, hpub, hsame⟩ :=
    updateClient_spec init m cm w hwf hnodup
  refine ⟨ok, cm1, w1, hrun, hpub, ?_, ?_, hok.2, hframe, hpre, hwf1⟩
  · intro kv hkv _ hinit
    exact hsame kv hkv (fun hc => hinit hc.2)
  · rintro ⟨kv, hkv, hn, hinit⟩
    cases hokv : ok with
    | false => rfl
    | true => exact absurd (hok.1 hokv kv hkv hn) hinit

/-- Witness of C10: `batchTb` applied to `registryTb` while "tb2" is down:
"tb3" is published, "tb2" keeps its state, the result is `false`. -/
theorem C10_reconcile_witness :
    ∃ ok cm1 w1, ClientManager.UpdateClient initTb2Down batchTb registryTb worldReplicated =
        .ok (ok, cm1, w1) ∧
      ok = false ∧ cm1.publishes w1 "tb3" "127.0.0.1:9731" ∧
      cm1.stateOf w1 "tb2" = registryTb.stateOf worldReplicated "tb2" := by
  obtain ⟨ok, cm1, w1, hrun, hpub, hsame, hfalse, _⟩ :=
    C10_reconcile initTb2Down batchTb registryTb worldReplicated (by decide) (by decide)
  exact ⟨ok, cm1, w1, hrun,
    hfalse ⟨("tb2", "127.0.0.1:9932"), by decide, by decide, by decide⟩,
    hpub ("tb3", "127.0.0.1:9731") (by decide) (by decide) (by decide),
    hsame ("tb2", "127.0.0.1:9932") (by decide) (by decide) (by decide)⟩

end rtidb.catalog
